/-
Verification of the Patriot Center incremental cache pipeline
(starters cache, replacement-score / rolling-average engine, ffWAR
simulation engine, shared incremental-update orchestrator).

The Python sources under patriot_center_backend/ are shallowly embedded:
Python dicts become insertion-ordered association lists, floats become
rationals (ℚ), fallible paths become Option/Except, and the network is a
parameter (each endpoint's payload and HTTP status are explicit inputs).
-/
import Mathlib

namespace PatriotCenter

/-! ## Insertion-ordered dictionaries

Python `dict` semantics: `d[k] = v` updates the value in place when the
key exists (keeping its position) and appends otherwise; iteration and
serialisation follow insertion order. -/

abbrev Dict (α β : Type _) := List (α × β)

/-- `d.get(k)` / `d[k]` lookup: value of the first pair with key `k`. -/
def dictGet {α β : Type _} [DecidableEq α] (d : Dict α β) (k : α) : Option β :=
  (d.find? (fun p => p.1 = k)).map (·.2)

/-- `d[k] = v`: update in place when the key is present, append otherwise. -/
def dictInsert {α β : Type _} [DecidableEq α] (d : Dict α β) (k : α) (v : β) :
    Dict α β :=
  if d.any (fun p => p.1 = k) then
    d.map (fun p => if p.1 = k then (k, v) else p)
  else
    d ++ [(k, v)]

/-- Keys in insertion order. -/
def dictKeys {α β : Type _} (d : Dict α β) : List α := d.map (·.1)

/-! ## Rounding

Python's `round(x, n)` and `Decimal.quantize` (default context) both round
half to even.  Numbers are modelled as exact rationals, so the embedded
rounding is exact round-half-even at a given number of decimal digits. -/

/-- Kernel-computable floor of a rational. -/
def ratFloor (q : ℚ) : ℤ := q.num / q.den

theorem ratFloor_eq (q : ℚ) : ratFloor q = ⌊q⌋ := Rat.floor_def.symm

/-- Round a rational to the nearest integer, ties to even. -/
def roundHalfEven (s : ℚ) : ℤ :=
  if s - ratFloor s < 1/2 then ratFloor s
  else if 1/2 < s - ratFloor s then ratFloor s + 1
  else if ratFloor s % 2 = 0 then ratFloor s else ratFloor s + 1

/-- Round to `d` decimal places, ties to even (Python `round(x, d)`). -/
def roundTo (d : ℕ) (q : ℚ) : ℚ :=
  (roundHalfEven (q * 10 ^ d) : ℚ) / 10 ^ d

theorem abs_roundHalfEven_sub_le (s : ℚ) : |(roundHalfEven s : ℚ) - s| ≤ 1/2 := by
  have h1 : (⌊s⌋ : ℚ) ≤ s := Int.floor_le s
  have h2 : s < ⌊s⌋ + 1 := Int.lt_floor_add_one s
  unfold roundHalfEven
  rw [ratFloor_eq]
  split_ifs with hf hg he <;>
    · rw [abs_le]
      constructor <;> push_cast <;> linarith

theorem abs_roundTo_sub_le (d : ℕ) (q : ℚ) :
    |roundTo d q - q| ≤ 1 / (2 * 10 ^ d) := by
  have h := abs_roundHalfEven_sub_le (q * 10 ^ d)
  have hpow : (0:ℚ) < 10 ^ d := by positivity
  have hrw : roundTo d q - q =
      ((roundHalfEven (q * 10 ^ d) : ℚ) - q * 10 ^ d) / 10 ^ d := by
    field_simp [roundTo]
    ring
  rw [hrw, abs_div, abs_of_pos hpow, div_le_div_iff₀ hpow (by positivity)]
  calc |(roundHalfEven (q * 10 ^ d) : ℚ) - q * 10 ^ d| * (2 * 10 ^ d)
      ≤ (1/2) * (2 * 10 ^ d) := mul_le_mul_of_nonneg_right h (by positivity)
    _ = 1 * 10 ^ d := by ring

example : roundTo 2 (157/30) = 523/100 := by
  norm_num [roundTo, roundHalfEven, ratFloor]

/-! ## Replacement-score loader (`utils/replacement_score_loader.py`)

`_fetch_replacement_score_for_week` pulls one week's league-wide stat
lines, partitions half-PPR scores by position, sorts each list in
descending order and reads the fixed replacement ranks
(QB 13th, RB 31st, WR 31st, TE 13th), counting byes as
`32 - number of TEAM_ entries`. -/

/-- Entry of the seeded `PLAYER_IDS` table as used by the replacement
loader (only the position is read). -/
structure PlayerInfo where
  position : String
deriving DecidableEq

/-- One player's raw weekly stat line; `pts_half_ppr` may be absent. -/
structure StatLine where
  pts_half_ppr : Option ℚ
deriving DecidableEq

/-- List-of-chars prefix test (helper for substring containment). -/
def charsLeading : List Char → List Char → Bool
  | [], _ => true
  | _ :: _, [] => false
  | a :: as, b :: bs => a = b && charsLeading as bs

/-- Substring containment on char lists (Python `needle in haystack`). -/
def charsContain (needle : List Char) : List Char → Bool
  | [] => charsLeading needle []
  | b :: bs => charsLeading needle (b :: bs) || charsContain needle bs

/-- Python `"TEAM_" in player_id`. -/
def isTeamKey (pid : String) : Bool :=
  charsContain "TEAM_".toList pid.toList

/-- `_get_max_weeks` of `replacement_score_loader.py`. -/
def rsGetMaxWeeks (season currentSeason currentWeek : ℕ) : ℕ :=
  if season = currentSeason then currentWeek
  else if season ≤ 2020 then 17
  else 18

/-- Accumulator for the stat-gathering loop of
`_fetch_replacement_score_for_week`: the running bye count and the four
per-position score lists, appended in stat-line iteration order. -/
structure GatherState where
  byes : ℤ
  qb : List ℚ
  rb : List ℚ
  wr : List ℚ
  te : List ℚ
deriving DecidableEq

/-- One iteration of the gathering loop over `week_data` items. -/
def gatherStep (playerIds : Dict String PlayerInfo) (st : GatherState)
    (entry : String × StatLine) : GatherState :=
  if isTeamKey entry.1 then { st with byes := st.byes - 1 }
  else
    match dictGet playerIds entry.1 with
    | none => st
    | some info =>
      match entry.2.pts_half_ppr with
      | none => st
      | some p =>
        if info.position = "QB" then { st with qb := st.qb ++ [p] }
        else if info.position = "RB" then { st with rb := st.rb ++ [p] }
        else if info.position = "WR" then { st with wr := st.wr ++ [p] }
        else if info.position = "TE" then { st with te := st.te ++ [p] }
        else st

/-- The gathering loop, starting from 32 assumed-active teams. -/
def gatherWeek (playerIds : Dict String PlayerInfo)
    (weekData : Dict String StatLine) : GatherState :=
  weekData.foldl (gatherStep playerIds) ⟨32, [], [], [], []⟩

/-- Python `list.sort(reverse=True)`: descending order. -/
def sortDesc (l : List ℚ) : List ℚ :=
  l.insertionSort (fun a b => b ≤ a)

/-- The per-week replacement record: the four positional replacement
scores plus the week's bye count. -/
structure WeekScores where
  QB : ℚ
  RB : ℚ
  WR : ℚ
  TE : ℚ
  byes : ℤ
deriving DecidableEq

/-- `_fetch_replacement_score_for_week`, with the network made explicit:
`weekData`/`status` are the payload and HTTP status of the
`stats/nfl/regular/{season}/{week}` call.  A non-200 status raises; a
position list shorter than its replacement rank raises `IndexError`. -/
def fetchReplacementScoreForWeek (playerIds : Dict String PlayerInfo)
    (weekData : Dict String StatLine) (status : ℕ) :
    Except String WeekScores :=
  if status ≠ 200 then
    .error "Failed to fetch week data from Sleeper API"
  else
    match (sortDesc (gatherWeek playerIds weekData).qb)[12]?,
        (sortDesc (gatherWeek playerIds weekData).rb)[30]?,
        (sortDesc (gatherWeek playerIds weekData).wr)[30]?,
        (sortDesc (gatherWeek playerIds weekData).te)[12]? with
    | some q, some r, some w, some t =>
      .ok ⟨q, r, w, t, (gatherWeek playerIds weekData).byes⟩
    | _, _, _, _ => .error "IndexError: list index out of range"

/-! ## 3-year rolling averages (`_get_three_yr_avg`)

For a target (season, week): gather replacement scores from the target
season up to the target week, the two full prior seasons, and weeks
`week..` of the season three years back; group by the source week's bye
count; average each bucket; then run the backward monotonicity pass over
the ascending list of bye counts. -/

/-- The four positions iterated by `_get_three_yr_avg` (every key of the
freshly fetched week record except `byes`). -/
inductive Pos
  | QB
  | RB
  | WR
  | TE
deriving DecidableEq

/-- Positional projection of a week record. -/
def WeekScores.pos : WeekScores → Pos → ℚ
  | s, .QB => s.QB
  | s, .RB => s.RB
  | s, .WR => s.WR
  | s, .TE => s.TE

/-- The replacement-score cache payload: season → week → record. -/
abbrev RSCache := Dict ℕ (Dict ℕ WeekScores)

/-- Week range contributed by `past_year` to the rolling window of
(season, week): the full era-sized season by default, truncated to
`1..week` for the target season and to `week..end` for `season - 3`. -/
def yrWeeks (pastYear season week : ℕ) : List ℕ :=
  let hi := if pastYear ≤ 2020 then 18 else 19
  let ws := List.range' 1 (hi - 1)
  let ws := if pastYear = season then List.range' 1 week else ws
  let ws := if pastYear = season - 3 then List.range' week (hi - week) else ws
  ws

/-- Bye-count buckets of gathered scores for one position
(`three_yr_season_scores[pos]`), keyed by the source week's bye count in
first-appearance order. -/
def gatherBuckets (cache : RSCache) (season week : ℕ) (pos : Pos) :
    Dict ℤ (List ℚ) :=
  [season, season - 1, season - 2, season - 3].foldl (fun acc py =>
    (yrWeeks py season week).foldl (fun acc w =>
      match dictGet cache py with
      | none => acc
      | some yd =>
        match dictGet yd w with
        | none => acc
        | some ws =>
          let prev := (dictGet acc ws.byes).getD []
          dictInsert acc ws.byes (prev ++ [ws.pos pos])) acc) []

/-- Per-bucket averages (`three_yr_season_average[pos]`). -/
def bucketAvgs (cache : RSCache) (season week : ℕ) (pos : Pos) :
    Dict ℤ ℚ :=
  (gatherBuckets cache season week pos).map
    (fun p => (p.1, p.2.sum / p.2.length))

/-- `list_of_byes`: the distinct bye counts, ascending (the code sorts
the QB bucket keys and every position has the same key set). -/
def listOfByes (cache : RSCache) (season week : ℕ) : List ℤ :=
  (dictKeys (gatherBuckets cache season week Pos.QB)).insertionSort (· ≤ ·)

/-- The backward monotonicity pass: walking the ascending bye-count list
from the top, a bucket is raised to the value of the next-higher bucket
whenever the latter is larger (`avg[byes[i-1]] := max(avg[byes[i-1]],
avg[byes[i]])`, for i from the end down to 1). -/
def monoPass : List ℚ → List ℚ
  | [] => []
  | x :: xs =>
    match monoPass xs with
    | [] => [x]
    | y :: ys => (if y > x then y else x) :: y :: ys

/-- Corrected bucket values for one position, in ascending bye-count
order (state of `three_yr_season_average[pos]` after the pass). -/
def correctedVals (cache : RSCache) (season week : ℕ) (pos : Pos) :
    List ℚ :=
  monoPass ((listOfByes cache season week).map
    (fun b => (dictGet (bucketAvgs cache season week pos) b).getD 0))

/-- The corrected bucket dictionary: ascending bye count ↦ corrected
average. -/
def correctedBuckets (cache : RSCache) (season week : ℕ) (pos : Pos) :
    Dict ℤ ℚ :=
  (listOfByes cache season week).zip (correctedVals cache season week pos)

/-- The augmented week record returned by `_get_three_yr_avg`: the
original fields plus the four `<POS>_3yr_avg` values keyed by the current
week's own bye count. -/
structure WeekScoresAvg extends WeekScores where
  QB_3yr_avg : ℚ
  RB_3yr_avg : ℚ
  WR_3yr_avg : ℚ
  TE_3yr_avg : ℚ
deriving DecidableEq

/-- `_get_three_yr_avg` (season, week, cache): `none` models the
`KeyError` paths (missing cache entry or missing bucket). -/
def getThreeYrAvg (cache : RSCache) (season week : ℕ) :
    Option WeekScoresAvg :=
  match dictGet cache season with
  | none => none
  | some yd =>
    match dictGet yd week with
    | none => none
    | some cur =>
      match dictGet (correctedBuckets cache season week .QB) cur.byes,
          dictGet (correctedBuckets cache season week .RB) cur.byes,
          dictGet (correctedBuckets cache season week .WR) cur.byes,
          dictGet (correctedBuckets cache season week .TE) cur.byes with
      | some q, some r, some w, some t =>
        some { toWeekScores := cur, QB_3yr_avg := q, RB_3yr_avg := r,
               WR_3yr_avg := w, TE_3yr_avg := t }
      | _, _, _, _ => none

/-- After the pass, each value is at least the one following it. -/
theorem monoPass_chain_ge (l : List ℚ) :
    List.Chain' (fun a b => b ≤ a) (monoPass l) := by
  induction l with
  | nil => simp [monoPass]
  | cons x xs ih =>
    rw [monoPass]
    cases h : monoPass xs with
    | nil => simp
    | cons y ys =>
      rw [h] at ih
      refine List.chain'_cons.mpr ⟨?_, ih⟩
      split_ifs with hgt
      · exact le_refl y
      · exact le_of_not_lt hgt

/-- Chains of two lists induce a chain on their zip. -/
theorem chain'_zip_of_chain' {α β : Type _} {r : α → α → Prop}
    {s : β → β → Prop} :
    ∀ (l₁ : List α) (l₂ : List β), List.Chain' r l₁ → List.Chain' s l₂ →
      List.Chain' (fun p q => r p.1 q.1 ∧ s p.2 q.2) (l₁.zip l₂)
  | [], _, _, _ => by simp
  | _ :: _, [], _, _ => by simp
  | [_], _ :: _, _, _ => by simp
  | _ :: _ :: _, [_], _, _ => by simp
  | a :: b :: l₁, x :: y :: l₂, h₁, h₂ => by
    rw [List.zip_cons_cons, List.zip_cons_cons]
    refine List.chain'_cons.mpr
      ⟨⟨(List.chain'_cons.mp h₁).1, (List.chain'_cons.mp h₂).1⟩, ?_⟩
    have h := chain'_zip_of_chain' (b :: l₁) (y :: l₂)
      (List.chain'_cons.mp h₁).2 (List.chain'_cons.mp h₂).2
    rwa [List.zip_cons_cons] at h

/-- C1 (amended): after the monotonicity-correction pass the bucket
values are non-INCREASING as the bye count increases: walking the
corrected buckets in ascending bye-count order, each adjacent pair has
the lower-bye-count bucket carrying a value greater than or equal to the
higher-bye-count bucket. -/
theorem C1_mono_corrected_buckets_antitone (cache : RSCache)
    (season week : ℕ) (pos : Pos) :
    List.Chain' (fun p q : ℤ × ℚ => p.1 ≤ q.1 ∧ q.2 ≤ p.2)
      (correctedBuckets cache season week pos) := by
  rw [show correctedBuckets cache season week pos =
      (listOfByes cache season week).zip (correctedVals cache season week pos)
    from rfl]
  exact chain'_zip_of_chain' _ _
    (List.sorted_insertionSort _ _).chain' (monoPass_chain_ge _)

/-- Concrete cache refuting C1 as stated: season 2021 week 1 contributes
a 2-bye bucket with score 1, season 2022 week 1 a 0-bye bucket with
score 5. -/
def rsCacheC1 : RSCache :=
  [(2022, [(1, ⟨5, 5, 5, 5, 0⟩)]), (2021, [(1, ⟨1, 1, 1, 1, 2⟩)])]

/-- C1 (counterexample): on `rsCacheC1`, `_get_three_yr_avg` computes the
(2022, week 1) rolling average, and the corrected buckets are NOT
non-decreasing in bye count: the 0-bye bucket holds 5 while the adjacent
2-bye bucket holds 1. -/
theorem C1_counterexample :
    (getThreeYrAvg rsCacheC1 2022 1).isSome = true ∧
      ¬ List.Chain' (fun p q : ℤ × ℚ => p.2 ≤ q.2)
        (correctedBuckets rsCacheC1 2022 1 Pos.QB) := by
  have hb : ∀ pos, gatherBuckets rsCacheC1 2022 1 pos = [(0, [5]), (2, [1])] := by
    intro pos
    cases pos <;> decide
  have ha : ∀ pos, bucketAvgs rsCacheC1 2022 1 pos = [(0, 5), (2, 1)] := by
    intro pos
    rw [show bucketAvgs rsCacheC1 2022 1 pos =
        (gatherBuckets rsCacheC1 2022 1 pos).map
          (fun p => (p.1, p.2.sum / (p.2.length : ℚ))) from rfl, hb pos]
    norm_num
  have hl : listOfByes rsCacheC1 2022 1 = [0, 2] := by decide
  have hv : ∀ pos, correctedVals rsCacheC1 2022 1 pos = [5, 1] := by
    intro pos
    rw [show correctedVals rsCacheC1 2022 1 pos =
        monoPass ((listOfByes rsCacheC1 2022 1).map
          (fun b => (dictGet (bucketAvgs rsCacheC1 2022 1 pos) b).getD 0))
      from rfl, hl, ha pos]
    norm_num [monoPass, dictGet, List.find?]
  have hcb : ∀ pos, correctedBuckets rsCacheC1 2022 1 pos = [(0, 5), (2, 1)] := by
    intro pos
    rw [show correctedBuckets rsCacheC1 2022 1 pos =
        (listOfByes rsCacheC1 2022 1).zip (correctedVals rsCacheC1 2022 1 pos)
      from rfl, hl, hv pos]
    rfl
  constructor
  · have hres : getThreeYrAvg rsCacheC1 2022 1 =
        some ⟨⟨5, 5, 5, 5, 0⟩, 5, 5, 5, 5⟩ := by
      simp only [getThreeYrAvg,
        show dictGet rsCacheC1 2022 = some [(1, (⟨5, 5, 5, 5, 0⟩ : WeekScores))]
          from by decide,
        show dictGet [((1:ℕ), (⟨5, 5, 5, 5, 0⟩ : WeekScores))] 1 =
          some ⟨5, 5, 5, 5, 0⟩ from by decide,
        hcb]
      rfl
    rw [hres]
    rfl
  · rw [hcb Pos.QB]
    simp only [List.chain'_cons, List.chain'_singleton, and_true]
    norm_num

/-- PLAYER_IDS table for the C4 input: 13 QBs, 31 RBs, 31 WRs,
13 TEs (split into per-position chunks to keep elaboration cheap). -/
def c4PidQb : Dict String PlayerInfo := [
  ("q1", ⟨"QB"⟩),
  ("q2", ⟨"QB"⟩),
  ("q3", ⟨"QB"⟩),
  ("q4", ⟨"QB"⟩),
  ("q5", ⟨"QB"⟩),
  ("q6", ⟨"QB"⟩),
  ("q7", ⟨"QB"⟩),
  ("q8", ⟨"QB"⟩),
  ("q9", ⟨"QB"⟩),
  ("q10", ⟨"QB"⟩),
  ("q11", ⟨"QB"⟩),
  ("q12", ⟨"QB"⟩),
  ("q13", ⟨"QB"⟩)
]

def c4PidRb : Dict String PlayerInfo := [
  ("r1", ⟨"RB"⟩),
  ("r2", ⟨"RB"⟩),
  ("r3", ⟨"RB"⟩),
  ("r4", ⟨"RB"⟩),
  ("r5", ⟨"RB"⟩),
  ("r6", ⟨"RB"⟩),
  ("r7", ⟨"RB"⟩),
  ("r8", ⟨"RB"⟩),
  ("r9", ⟨"RB"⟩),
  ("r10", ⟨"RB"⟩),
  ("r11", ⟨"RB"⟩),
  ("r12", ⟨"RB"⟩),
  ("r13", ⟨"RB"⟩),
  ("r14", ⟨"RB"⟩),
  ("r15", ⟨"RB"⟩),
  ("r16", ⟨"RB"⟩),
  ("r17", ⟨"RB"⟩),
  ("r18", ⟨"RB"⟩),
  ("r19", ⟨"RB"⟩),
  ("r20", ⟨"RB"⟩),
  ("r21", ⟨"RB"⟩),
  ("r22", ⟨"RB"⟩),
  ("r23", ⟨"RB"⟩),
  ("r24", ⟨"RB"⟩),
  ("r25", ⟨"RB"⟩),
  ("r26", ⟨"RB"⟩),
  ("r27", ⟨"RB"⟩),
  ("r28", ⟨"RB"⟩),
  ("r29", ⟨"RB"⟩),
  ("r30", ⟨"RB"⟩),
  ("r31", ⟨"RB"⟩)
]

def c4PidWr : Dict String PlayerInfo := [
  ("w1", ⟨"WR"⟩),
  ("w2", ⟨"WR"⟩),
  ("w3", ⟨"WR"⟩),
  ("w4", ⟨"WR"⟩),
  ("w5", ⟨"WR"⟩),
  ("w6", ⟨"WR"⟩),
  ("w7", ⟨"WR"⟩),
  ("w8", ⟨"WR"⟩),
  ("w9", ⟨"WR"⟩),
  ("w10", ⟨"WR"⟩),
  ("w11", ⟨"WR"⟩),
  ("w12", ⟨"WR"⟩),
  ("w13", ⟨"WR"⟩),
  ("w14", ⟨"WR"⟩),
  ("w15", ⟨"WR"⟩),
  ("w16", ⟨"WR"⟩),
  ("w17", ⟨"WR"⟩),
  ("w18", ⟨"WR"⟩),
  ("w19", ⟨"WR"⟩),
  ("w20", ⟨"WR"⟩),
  ("w21", ⟨"WR"⟩),
  ("w22", ⟨"WR"⟩),
  ("w23", ⟨"WR"⟩),
  ("w24", ⟨"WR"⟩),
  ("w25", ⟨"WR"⟩),
  ("w26", ⟨"WR"⟩),
  ("w27", ⟨"WR"⟩),
  ("w28", ⟨"WR"⟩),
  ("w29", ⟨"WR"⟩),
  ("w30", ⟨"WR"⟩),
  ("w31", ⟨"WR"⟩)
]

def c4PidTe : Dict String PlayerInfo := [
  ("t1", ⟨"TE"⟩),
  ("t2", ⟨"TE"⟩),
  ("t3", ⟨"TE"⟩),
  ("t4", ⟨"TE"⟩),
  ("t5", ⟨"TE"⟩),
  ("t6", ⟨"TE"⟩),
  ("t7", ⟨"TE"⟩),
  ("t8", ⟨"TE"⟩),
  ("t9", ⟨"TE"⟩),
  ("t10", ⟨"TE"⟩),
  ("t11", ⟨"TE"⟩),
  ("t12", ⟨"TE"⟩),
  ("t13", ⟨"TE"⟩)
]

def c4PlayerIds : Dict String PlayerInfo :=
  c4PidQb ++ c4PidRb ++ c4PidWr ++ c4PidTe

/-- Week stat payload for the C4 input (scores already descending
within each position; no TEAM_ entries, so 32 byes). -/
def c4WdQb : Dict String StatLine := [
  ("q1", ⟨some 130⟩),
  ("q2", ⟨some 129⟩),
  ("q3", ⟨some 128⟩),
  ("q4", ⟨some 127⟩),
  ("q5", ⟨some 126⟩),
  ("q6", ⟨some 125⟩),
  ("q7", ⟨some 124⟩),
  ("q8", ⟨some 123⟩),
  ("q9", ⟨some 122⟩),
  ("q10", ⟨some 121⟩),
  ("q11", ⟨some 120⟩),
  ("q12", ⟨some 119⟩),
  ("q13", ⟨some 118⟩)
]

def c4WdRb : Dict String StatLine := [
  ("r1", ⟨some 310⟩),
  ("r2", ⟨some 309⟩),
  ("r3", ⟨some 308⟩),
  ("r4", ⟨some 307⟩),
  ("r5", ⟨some 306⟩),
  ("r6", ⟨some 305⟩),
  ("r7", ⟨some 304⟩),
  ("r8", ⟨some 303⟩),
  ("r9", ⟨some 302⟩),
  ("r10", ⟨some 301⟩),
  ("r11", ⟨some 300⟩),
  ("r12", ⟨some 299⟩),
  ("r13", ⟨some 298⟩),
  ("r14", ⟨some 297⟩),
  ("r15", ⟨some 296⟩),
  ("r16", ⟨some 295⟩),
  ("r17", ⟨some 294⟩),
  ("r18", ⟨some 293⟩),
  ("r19", ⟨some 292⟩),
  ("r20", ⟨some 291⟩),
  ("r21", ⟨some 290⟩),
  ("r22", ⟨some 289⟩),
  ("r23", ⟨some 288⟩),
  ("r24", ⟨some 287⟩),
  ("r25", ⟨some 286⟩),
  ("r26", ⟨some 285⟩),
  ("r27", ⟨some 284⟩),
  ("r28", ⟨some 283⟩),
  ("r29", ⟨some 282⟩),
  ("r30", ⟨some 281⟩),
  ("r31", ⟨some 280⟩)
]

def c4WdWr : Dict String StatLine := [
  ("w1", ⟨some 410⟩),
  ("w2", ⟨some 409⟩),
  ("w3", ⟨some 408⟩),
  ("w4", ⟨some 407⟩),
  ("w5", ⟨some 406⟩),
  ("w6", ⟨some 405⟩),
  ("w7", ⟨some 404⟩),
  ("w8", ⟨some 403⟩),
  ("w9", ⟨some 402⟩),
  ("w10", ⟨some 401⟩),
  ("w11", ⟨some 400⟩),
  ("w12", ⟨some 399⟩),
  ("w13", ⟨some 398⟩),
  ("w14", ⟨some 397⟩),
  ("w15", ⟨some 396⟩),
  ("w16", ⟨some 395⟩),
  ("w17", ⟨some 394⟩),
  ("w18", ⟨some 393⟩),
  ("w19", ⟨some 392⟩),
  ("w20", ⟨some 391⟩),
  ("w21", ⟨some 390⟩),
  ("w22", ⟨some 389⟩),
  ("w23", ⟨some 388⟩),
  ("w24", ⟨some 387⟩),
  ("w25", ⟨some 386⟩),
  ("w26", ⟨some 385⟩),
  ("w27", ⟨some 384⟩),
  ("w28", ⟨some 383⟩),
  ("w29", ⟨some 382⟩),
  ("w30", ⟨some 381⟩),
  ("w31", ⟨some 380⟩)
]

def c4WdTe : Dict String StatLine := [
  ("t1", ⟨some 218⟩),
  ("t2", ⟨some 217⟩),
  ("t3", ⟨some 216⟩),
  ("t4", ⟨some 215⟩),
  ("t5", ⟨some 214⟩),
  ("t6", ⟨some 213⟩),
  ("t7", ⟨some 212⟩),
  ("t8", ⟨some 211⟩),
  ("t9", ⟨some 210⟩),
  ("t10", ⟨some 209⟩),
  ("t11", ⟨some 208⟩),
  ("t12", ⟨some 207⟩),
  ("t13", ⟨some 206⟩)
]

def c4WeekData : Dict String StatLine :=
  c4WdQb ++ c4WdRb ++ c4WdWr ++ c4WdTe

/-- The gathering loop never drops a position entry: helper connecting a
missing replacement rank to the gathered list length (not used by C4's
theorems directly, kept for the characterisation proof). -/
theorem isSome_getElem?_iff {x : Type} (l : List x) (i : Nat) :
    l[i]?.isSome = true ↔ i < l.length := by
  rw [Option.isSome_iff_ne_none, ne_eq, List.getElem?_eq_none_iff]
  omega

/-- C4 (amended): `_fetch_replacement_score_for_week` raises (fetch
failure or `IndexError`) exactly when the call status is not 200 or some
position has fewer scored players than its replacement rank: 13 QBs,
31 RBs, 31 WRs, 13 TEs.  Having exactly rank-many players at each
position succeeds. -/
theorem C4_insufficient_players_characterisation
    (playerIds : Dict String PlayerInfo) (weekData : Dict String StatLine)
    (status : Nat) :
    (fetchReplacementScoreForWeek playerIds weekData status).isOk = true ↔
      status = 200 ∧
        13 ≤ (gatherWeek playerIds weekData).qb.length ∧
        31 ≤ (gatherWeek playerIds weekData).rb.length ∧
        31 ≤ (gatherWeek playerIds weekData).wr.length ∧
        13 ≤ (gatherWeek playerIds weekData).te.length := by
  have hlen : ∀ (l : List ℚ) (i : Nat), (sortDesc l)[i]?.isSome = true ↔ i < l.length := by
    intro l i
    rw [isSome_getElem?_iff, sortDesc, List.length_insertionSort]
  unfold fetchReplacementScoreForWeek
  by_cases hs : status = 200
  · subst hs
    rw [if_neg (by norm_num)]
    have hQ := hlen (gatherWeek playerIds weekData).qb 12
    have hR := hlen (gatherWeek playerIds weekData).rb 30
    have hW := hlen (gatherWeek playerIds weekData).wr 30
    have hT := hlen (gatherWeek playerIds weekData).te 12
    rcases hq : (sortDesc (gatherWeek playerIds weekData).qb)[12]? with _ | q <;>
      rcases hr : (sortDesc (gatherWeek playerIds weekData).rb)[30]? with _ | r <;>
        rcases hw : (sortDesc (gatherWeek playerIds weekData).wr)[30]? with _ | w <;>
          rcases ht : (sortDesc (gatherWeek playerIds weekData).te)[12]? with _ | t <;>
            · rw [hq] at hQ
              rw [hr] at hR
              rw [hw] at hW
              rw [ht] at hT
              simp only [Option.isSome_some, Option.isSome_none,
                Bool.false_eq_true, false_iff, true_iff, not_lt,
                eq_self_iff_true] at hQ hR hW hT
              constructor
              · intro hok
                first
                  | exact ⟨rfl, by omega, by omega, by omega, by omega⟩
                  | simp [Except.isOk, Except.toBool] at hok
              · intro hrhs
                first
                  | (exfalso
                     omega)
                  | simp [Except.isOk, Except.toBool]
  · rw [if_pos hs]
    constructor
    · intro h
      simp [Except.isOk, Except.toBool] at h
    · intro h
      exact absurd h.1 hs

instance {ε α : Type _} [DecidableEq ε] [DecidableEq α] :
    DecidableEq (Except ε α) := fun a b =>
  match a, b with
  | .error e, .error f => decidable_of_iff (e = f) (by simp)
  | .error _, .ok _ => .isFalse (by simp)
  | .ok _, .error _ => .isFalse (by simp)
  | .ok x, .ok y => decidable_of_iff (x = y) (by simp)

/-- C4 (counterexample): a week with exactly 13 scored QBs (and 31 RBs,
31 WRs, 13 TEs) does NOT raise: the computation succeeds and returns the
13th QB score (118), refuting "fewer than 14 scored QBs is fatal". -/
theorem C4_counterexample :
    (gatherWeek c4PlayerIds c4WeekData).qb.length = 13 ∧
      fetchReplacementScoreForWeek c4PlayerIds c4WeekData 200 =
        .ok ⟨118, 280, 380, 206, 32⟩ := by
  decide

/-! ## Dictionary lemmas -/

theorem dictGet_cons {α β : Type _} [DecidableEq α] (hd : α × β)
    (tl : Dict α β) (k : α) :
    dictGet (hd :: tl) k = if hd.1 = k then some hd.2 else dictGet tl k := by
  by_cases h : hd.1 = k
  · rw [dictGet, List.find?_cons_of_pos _ (by simp [h]), if_pos h]
    rfl
  · rw [dictGet, List.find?_cons_of_neg _ (by simp [h]), if_neg h]
    rfl

theorem dictGet_map_replace_self {α β : Type _} [DecidableEq α]
    (tl : Dict α β) (k : α) (v : β)
    (h : (tl.any fun p => decide (p.1 = k)) = true) :
    dictGet (tl.map (fun p => if p.1 = k then (k, v) else p)) k = some v := by
  induction tl with
  | nil => simp at h
  | cons hd tl ih =>
    rw [List.map_cons]
    by_cases hk : hd.1 = k
    · rw [if_pos hk, dictGet_cons, if_pos rfl]
    · rw [if_neg hk, dictGet_cons, if_neg hk]
      apply ih
      simp only [List.any_cons, Bool.or_eq_true, decide_eq_true_eq] at h
      rcases h with h | h
      · exact absurd h hk
      · simpa using h

theorem dictGet_map_replace_ne {α β : Type _} [DecidableEq α]
    (tl : Dict α β) (k k' : α) (v : β) (h : k' ≠ k) :
    dictGet (tl.map (fun p => if p.1 = k then (k, v) else p)) k' =
      dictGet tl k' := by
  induction tl with
  | nil => rfl
  | cons hd tl ih =>
    rw [List.map_cons]
    by_cases hk : hd.1 = k
    · rw [if_pos hk, dictGet_cons, dictGet_cons,
        if_neg (show ¬ ((k, v) : α × β).1 = k' from fun hc => h hc.symm),
        if_neg (show ¬ hd.1 = k' from by rw [hk]; exact fun hc => h hc.symm)]
      exact ih
    · rw [if_neg hk, dictGet_cons, dictGet_cons]
      by_cases hck : hd.1 = k'
      · rw [if_pos hck, if_pos hck]
      · rw [if_neg hck, if_neg hck]
        exact ih

theorem dictGet_append_single_self {α β : Type _} [DecidableEq α]
    (d : Dict α β) (k : α) (v : β)
    (h : ¬ (d.any fun p => decide (p.1 = k)) = true) :
    dictGet (d ++ [(k, v)]) k = some v := by
  induction d with
  | nil =>
    rw [List.nil_append, dictGet_cons, if_pos rfl]
  | cons hd tl ih =>
    simp only [List.any_cons, Bool.or_eq_true, decide_eq_true_eq,
      not_or] at h
    rw [List.cons_append, dictGet_cons, if_neg h.1]
    exact ih (by simpa using h.2)

theorem dictGet_append_single_ne {α β : Type _} [DecidableEq α]
    (d : Dict α β) (k k' : α) (v : β) (h : k' ≠ k) :
    dictGet (d ++ [(k, v)]) k' = dictGet d k' := by
  induction d with
  | nil =>
    rw [List.nil_append, dictGet_cons,
      if_neg (show ¬ ((k, v) : α × β).1 = k' from fun hc => h hc.symm)]
  | cons hd tl ih =>
    rw [List.cons_append, dictGet_cons, dictGet_cons]
    by_cases hck : hd.1 = k'
    · rw [if_pos hck, if_pos hck]
    · rw [if_neg hck, if_neg hck]
      exact ih

theorem dictGet_dictInsert_self {α β : Type _} [DecidableEq α]
    (d : Dict α β) (k : α) (v : β) :
    dictGet (dictInsert d k v) k = some v := by
  unfold dictInsert
  split_ifs with h
  · exact dictGet_map_replace_self d k v h
  · exact dictGet_append_single_self d k v h

theorem dictGet_dictInsert_of_ne {α β : Type _} [DecidableEq α]
    (d : Dict α β) (k k' : α) (v : β) (h : k' ≠ k) :
    dictGet (dictInsert d k v) k' = dictGet d k' := by
  unfold dictInsert
  split_ifs with hmem
  · exact dictGet_map_replace_ne d k k' v h
  · exact dictGet_append_single_ne d k k' v h

/-- Insert a list of key/value pairs in order (`d[k] = v` repeatedly). -/
def insertAll {α β : Type _} [DecidableEq α] (d : Dict α β)
    (kvs : List (α × β)) : Dict α β :=
  kvs.foldl (fun d kv => dictInsert d kv.1 kv.2) d

theorem isSome_dictGet_dictInsert {α β : Type _} [DecidableEq α]
    (d : Dict α β) (k k' : α) (v : β)
    (h : (dictGet d k').isSome = true) :
    (dictGet (dictInsert d k v) k').isSome = true := by
  by_cases hk : k' = k
  · subst hk
    rw [dictGet_dictInsert_self]
    rfl
  · rwa [dictGet_dictInsert_of_ne _ _ _ _ hk]

theorem isSome_dictGet_insertAll_of_mem {α β : Type _} [DecidableEq α]
    (kvs : List (α × β)) (k : α) :
    ∀ (d : Dict α β), (∃ v, (k, v) ∈ kvs) ∨ (dictGet d k).isSome = true →
      (dictGet (insertAll d kvs) k).isSome = true := by
  induction kvs with
  | nil =>
    intro d h
    rcases h with ⟨v, hv⟩ | h
    · simp at hv
    · simpa [insertAll] using h
  | cons kv kvs ih =>
    intro d h
    rw [insertAll, List.foldl_cons]
    apply ih
    rcases h with ⟨v, hv⟩ | h
    · rcases List.mem_cons.mp hv with heq | hmem
      · right
        rw [← heq, dictGet_dictInsert_self]
        rfl
      · exact Or.inl ⟨v, hmem⟩
    · exact Or.inr (isSome_dictGet_dictInsert _ _ _ _ h)

theorem dictGet_insertAll_forall {α β : Type _} [DecidableEq α]
    {P : β → Prop} (kvs : List (α × β)) (k : α) :
    ∀ (d : Dict α β), (∀ kv ∈ kvs, kv.1 = k → P kv.2) →
      (∀ v, dictGet d k = some v → P v) →
      ∀ v, dictGet (insertAll d kvs) k = some v → P v := by
  induction kvs with
  | nil =>
    intro d _ hd
    simpa [insertAll] using hd
  | cons kv kvs ih =>
    intro d hkvs hd
    rw [insertAll, List.foldl_cons]
    apply ih
    · intro kv' h' hk'
      exact hkvs kv' (List.mem_cons_of_mem _ h') hk'
    · intro v hv
      by_cases hk : kv.1 = k
      · rw [← hk, dictGet_dictInsert_self] at hv
        cases hv
        exact hkvs kv (List.mem_cons_self _ _) hk
      · rw [dictGet_dictInsert_of_ne _ _ _ _ (fun hc => hk hc.symm)] at hv
        exact hd v hv

/-! ## ffWAR simulation engine (`utils/ffWAR_loader.py`)

`_calculate_ffWAR_position` receives the week's starters regrouped by
position as `{manager: {total_points, players: {player: points}}}` and
the position's 3-year-average replacement score; it simulates, for each
player, every ordered pair of distinct managers, counting +1 when the
player wins a matchup the replacement-level substitute would lose and
−1 in the opposite case. -/

/-- `_get_max_weeks` of `ffWAR_loader.py`. -/
def ffwarGetMaxWeeks (season currentSeason currentWeek : ℕ) : ℕ :=
  if season = currentSeason then currentWeek
  else if season = 2019 ∨ season = 2020 then 13
  else 14

/-- Per-manager slice of the week for one position:
`{total_points, players}`. -/
structure ManagerScores where
  total_points : ℚ
  players : Dict String ℚ
deriving DecidableEq

/-- Manager slice augmented with the two derived fields the code writes
back into the dict before simulating. -/
structure ExtManagerScores where
  total_points : ℚ
  players : Dict String ℚ
  total_minus_position : ℚ
  weighted_total_score : ℚ
deriving DecidableEq

/-- Count of players at this position this week. -/
def numPlayers (scores : Dict String ManagerScores) : ℕ :=
  (scores.map (fun p => p.2.players.length)).sum

/-- Sum of all players' points at this position this week. -/
def totalPositionScore (scores : Dict String ManagerScores) : ℚ :=
  (scores.map (fun p => (p.2.players.map (·.2)).sum)).sum

/-- A manager's own average at the position (0 when the manager started
no player there, guarding the division). -/
def playerAvgForManager (e : ManagerScores) : ℚ :=
  if e.players.length = 0 then 0
  else (e.players.map (·.2)).sum / e.players.length

/-- Augment every manager with `total_minus_position` and
`weighted_total_score` (team total − own positional average + league
positional average). -/
def extendScores (scores : Dict String ManagerScores)
    (avgPlayer : ℚ) : Dict String ExtManagerScores :=
  scores.map (fun p =>
    (p.1, { total_points := p.2.total_points, players := p.2.players,
            total_minus_position := p.2.total_points - playerAvgForManager p.2,
            weighted_total_score :=
              p.2.total_points - playerAvgForManager p.2 + avgPlayer }))

/-- One inner iteration of the matchup simulation: `manager_playing`
fields stay fixed, `manager_opposing` varies; self-matchups are
skipped. -/
def simStep (mp : String × ExtManagerScores) (playerScore replacementAvg : ℚ)
    (acc : ℤ × ℕ) (mo : String × ExtManagerScores) : ℤ × ℕ :=
  if mp.1 = mo.1 then acc
  else
    let oppScore := mo.2.weighted_total_score
    let simPlayerScore := mp.2.total_minus_position + playerScore
    let simReplacementScore := mp.2.total_minus_position + replacementAvg
    let acc :=
      if simPlayerScore > oppScore ∧ simReplacementScore < oppScore then
        (acc.1 + 1, acc.2)
      else acc
    let acc :=
      if simPlayerScore < oppScore ∧ simReplacementScore > oppScore then
        (acc.1 - 1, acc.2)
      else acc
    (acc.1, acc.2 + 1)

/-- `(num_wins, num_simulated_games)` for one player's score. -/
def simCounts (ext : Dict String ExtManagerScores)
    (playerScore replacementAvg : ℚ) : ℤ × ℕ :=
  ext.foldl (fun acc mp => ext.foldl (simStep mp playerScore replacementAvg) acc)
    (0, 0)

/-- One output record: `{ffWAR, manager, position}`. -/
structure FfwarEntry where
  ffWAR : ℚ
  manager : String
  position : String
deriving DecidableEq

/-- The ffWAR score from the simulation counters: 0 when no games were
simulated, otherwise `round(num_wins / num_simulated_games, 3)`. -/
def ffwarScore (c : ℤ × ℕ) : ℚ :=
  if c.2 = 0 then 0 else roundTo 3 ((c.1 : ℚ) / (c.2 : ℚ))

/-- `_calculate_ffWAR_position`: empty when no players at the position;
otherwise one record per starting player, keyed by player name (a later
occurrence of the same name overwrites an earlier one, as in the dict
assignment of the source). -/
def calculateFfwarPosition (scores : Dict String ManagerScores)
    (replacementAvg : ℚ) (position : String) : Dict String FfwarEntry :=
  if numPlayers scores = 0 then []
  else
    let avgPlayer := totalPositionScore scores / (numPlayers scores : ℚ)
    let ext := extendScores scores avgPlayer
    ext.foldl (fun out mgr =>
      mgr.2.players.foldl (fun out pl =>
        dictInsert out pl.1
          ⟨ffwarScore (simCounts ext pl.2 replacementAvg), mgr.1, position⟩)
        out) []

/-- The insertion sequence of the output loop, flattened. -/
def ffwarKvs (ext : Dict String ExtManagerScores) (replacementAvg : ℚ)
    (position : String) : List (String × FfwarEntry) :=
  ext.flatMap (fun mgr =>
    mgr.2.players.map (fun pl =>
      (pl.1, ⟨ffwarScore (simCounts ext pl.2 replacementAvg), mgr.1, position⟩)))

/-- A nested manager/player insertion loop equals inserting the
flattened key/value sequence. -/
theorem nested_foldl_insert
    (vals : String × ExtManagerScores → String × ℚ → FfwarEntry) :
    ∀ (l : List (String × ExtManagerScores)) (d : Dict String FfwarEntry),
      l.foldl (fun out mgr => mgr.2.players.foldl
          (fun out pl => dictInsert out pl.1 (vals mgr pl)) out) d
        = insertAll d
            (l.flatMap (fun mgr =>
              mgr.2.players.map (fun pl => (pl.1, vals mgr pl)))) := by
  intro l
  induction l with
  | nil => intro d; rfl
  | cons mgr rest ih =>
    intro d
    rw [List.foldl_cons, List.flatMap_cons, insertAll, List.foldl_append, ih]
    rw [insertAll, List.foldl_map]

/-- The nested output loop equals inserting the flattened sequence. -/
theorem calculateFfwarPosition_eq_insertAll (scores : Dict String ManagerScores)
    (replacementAvg : ℚ) (position : String)
    (h : ¬ numPlayers scores = 0) :
    calculateFfwarPosition scores replacementAvg position =
      insertAll []
        (ffwarKvs
          (extendScores scores (totalPositionScore scores / (numPlayers scores : ℚ)))
          replacementAvg position) := by
  rw [calculateFfwarPosition, if_neg h]
  exact nested_foldl_insert
    (fun mgr pl =>
      ⟨ffwarScore (simCounts
          (extendScores scores (totalPositionScore scores / (numPlayers scores : ℚ)))
          pl.2 replacementAvg), mgr.1, position⟩)
    (extendScores scores (totalPositionScore scores / (numPlayers scores : ℚ))) []

/-- Simulating a player who scores exactly the replacement average never
changes the win counter: both counted outcomes require strict
inequalities in opposite directions of the same two equal scores. -/
theorem simStep_fst_eq (mp mo : String × ExtManagerScores) (r : ℚ)
    (acc : ℤ × ℕ) : (simStep mp r r acc mo).1 = acc.1 := by
  have hc1 : ¬ (mp.2.total_minus_position + r > mo.2.weighted_total_score ∧
      mp.2.total_minus_position + r < mo.2.weighted_total_score) :=
    fun hc => absurd hc.2 (not_lt.mpr hc.1.le)
  have hc2 : ¬ (mp.2.total_minus_position + r < mo.2.weighted_total_score ∧
      mp.2.total_minus_position + r > mo.2.weighted_total_score) :=
    fun hc => absurd hc.1 (not_lt.mpr hc.2.le)
  by_cases h0 : mp.1 = mo.1
  · simp [simStep, h0]
  · simp [simStep, h0, hc1, hc2]

theorem simCounts_fst_eq_zero (ext : Dict String ExtManagerScores) (r : ℚ) :
    (simCounts ext r r).1 = 0 := by
  have inner : ∀ (mp : String × ExtManagerScores)
      (l : List (String × ExtManagerScores)) (acc : ℤ × ℕ),
      (l.foldl (simStep mp r r) acc).1 = acc.1 := by
    intro mp l
    induction l with
    | nil => intro acc; rfl
    | cons x xs ih =>
      intro acc
      rw [List.foldl_cons, ih, simStep_fst_eq]
  have outer : ∀ (l : List (String × ExtManagerScores)) (acc : ℤ × ℕ),
      (l.foldl (fun acc mp => ext.foldl (simStep mp r r) acc) acc).1
        = acc.1 := by
    intro l
    induction l with
    | nil => intro acc; rfl
    | cons x xs ih =>
      intro acc
      rw [List.foldl_cons, ih, inner]
  exact outer ext (0, 0)

theorem roundTo_zero (d : ℕ) : roundTo d 0 = 0 := by
  norm_num [roundTo, roundHalfEven, ratFloor]

theorem ffwarScore_of_fst_zero (c : ℤ × ℕ) (h : c.1 = 0) :
    ffwarScore c = 0 := by
  unfold ffwarScore
  split_ifs with h2
  · rfl
  · rw [h, Int.cast_zero, zero_div, roundTo_zero]

theorem dictGet_eq_some_imp {α β : Type _} [DecidableEq α]
    {d : Dict α β} {k : α} {v : β} (h : dictGet d k = some v) :
    ∃ pr, pr ∈ d ∧ pr.1 = k ∧ pr.2 = v := by
  rw [dictGet] at h
  rcases Option.map_eq_some'.mp h with ⟨pr, hfind, hv⟩
  exact ⟨pr, List.mem_of_find?_eq_some hfind,
    by simpa using List.find?_some hfind, hv⟩

/-- C6: a player whose weekly points equal the position's rolling-average
replacement score (and also the position's weekly average), in a week
with at least two managers at the position, receives an ffWAR of 0: no
simulated pairing counts +1 or −1. -/
theorem C6_replacement_level_player_zero_ffwar
    (scores : Dict String ManagerScores) (replacementAvg : ℚ)
    (position : String) (m p : String) (e : ManagerScores) (pts : ℚ)
    (hm : dictGet scores m = some e)
    (hp : dictGet e.players p = some pts)
    (hrepl : pts = replacementAvg)
    (havg : pts = totalPositionScore scores / (numPlayers scores : ℚ))
    (h2 : 2 ≤ scores.length)
    (huniq : ∀ m' e', (m', e') ∈ scores → ∀ q, (p, q) ∈ e'.players →
      q = replacementAvg) :
    ∃ entry, dictGet (calculateFfwarPosition scores replacementAvg position) p
        = some entry ∧ entry.ffWAR = 0 := by
  obtain ⟨pr, hprmem, hprk, hprv⟩ := dictGet_eq_some_imp hm
  obtain ⟨pl, hplmem, hplk, hplv⟩ := dictGet_eq_some_imp hp
  have hplmem' : pl ∈ pr.2.players := by rw [hprv]; exact hplmem
  have hnp : ¬ numPlayers scores = 0 := by
    intro h0
    have hlenmem : pr.2.players.length ∈ scores.map (fun q => q.2.players.length) :=
      List.mem_map_of_mem _ hprmem
    have hle : pr.2.players.length ≤ numPlayers scores :=
      List.single_le_sum (fun x _ => Nat.zero_le x) _ hlenmem
    have hpos : 0 < pr.2.players.length :=
      List.length_pos.mpr (List.ne_nil_of_mem hplmem')
    omega
  rw [calculateFfwarPosition_eq_insertAll _ _ _ hnp]
  have hall : ∀ kv ∈ ffwarKvs
      (extendScores scores (totalPositionScore scores / (numPlayers scores : ℚ)))
      replacementAvg position, kv.1 = p → kv.2.ffWAR = 0 := by
    intro kv hkv hkvp
    rcases List.mem_flatMap.mp hkv with ⟨mgr, hmgr, hkv2⟩
    rcases List.mem_map.mp hkv2 with ⟨pl2, hpl2, hkveq⟩
    rcases List.mem_map.mp hmgr with ⟨pr2, hpr2, hmgr2⟩
    have hplayers : mgr.2.players = pr2.2.players := by rw [← hmgr2]
    have hkey : pl2.1 = p := by rw [← hkveq] at hkvp; exact hkvp
    have hq : pl2.2 = replacementAvg := by
      apply huniq pr2.1 pr2.2 (by simpa using hpr2) pl2.2
      rw [← hkey]
      rw [hplayers] at hpl2
      simpa using hpl2
    have : kv.2 = ⟨ffwarScore (simCounts
        (extendScores scores (totalPositionScore scores / (numPlayers scores : ℚ)))
        pl2.2 replacementAvg), mgr.1, position⟩ := by rw [← hkveq]
    rw [this]
    show ffwarScore _ = 0
    rw [hq]
    exact ffwarScore_of_fst_zero _ (simCounts_fst_eq_zero _ _)
  have hmem : ∃ v, (p, v) ∈ ffwarKvs
      (extendScores scores (totalPositionScore scores / (numPlayers scores : ℚ)))
      replacementAvg position := by
    refine ⟨⟨ffwarScore (simCounts
        (extendScores scores (totalPositionScore scores / (numPlayers scores : ℚ)))
        pl.2 replacementAvg), pr.1, position⟩, ?_⟩
    show _ ∈ List.flatMap _ _
    refine List.mem_flatMap.mpr ⟨_, List.mem_map_of_mem _ hprmem,
      List.mem_map.mpr ⟨pl, hplmem', ?_⟩⟩
    show (pl.1, _) = (p, _)
    rw [hplk]
  have hsome := isSome_dictGet_insertAll_of_mem _ p [] (Or.inl hmem)
  rcases Option.isSome_iff_exists.mp hsome with ⟨entry, hentry⟩
  refine ⟨entry, hentry, ?_⟩
  exact @dictGet_insertAll_forall String FfwarEntry _
    (fun ent => ent.ffWAR = 0) _ p [] hall (by simp [dictGet]) entry hentry

/-- Concrete two-manager week for the C6 witness: both players score 10,
the replacement average is 10, and the positional weekly average is
(10 + 10) / 2 = 10. -/
def c6Scores : Dict String ManagerScores :=
  [("A", ⟨10, [("P", 10)]⟩), ("B", ⟨10, [("Q", 10)]⟩)]

theorem C6_witness :
    ∃ entry, dictGet (calculateFfwarPosition c6Scores 10 "QB") "P" = some entry ∧
      entry.ffWAR = 0 :=
  C6_replacement_level_player_zero_ffwar c6Scores 10 "QB" "A" "P"
    ⟨10, [("P", 10)]⟩ 10
    (by decide) (by decide) rfl
    (by norm_num [totalPositionScore, numPlayers, c6Scores])
    (by decide)
    (by
      intro m' e' hmem q hq
      simp only [c6Scores, List.mem_cons, List.not_mem_nil, or_false,
        Prod.mk.injEq] at hmem
      rcases hmem with ⟨hm', he'⟩ | ⟨hm', he'⟩ <;> subst he' <;> simp_all)

/-- Concrete 4-manager playoff-field week for C5: manager A's player P1
scores 30 against a replacement average of 15; every simulated pairing is
a win the replacement would lose, so net = 12 over 12 pairings. -/
def c5Scores : Dict String ManagerScores :=
  [("A", ⟨30, [("P1", 30)]⟩), ("B", ⟨20, [("P2", 20)]⟩),
   ("C", ⟨20, [("P3", 20)]⟩), ("D", ⟨10, [("P4", 10)]⟩)]

/-- The extended manager dict that `_calculate_ffWAR_position` derives
from `c5Scores` (league positional average 20; every manager's
`total_minus_position` is 0). -/
def c5Ext : Dict String ExtManagerScores :=
  [("A", ⟨30, [("P1", 30)], 0, 20⟩), ("B", ⟨20, [("P2", 20)], 0, 20⟩),
   ("C", ⟨20, [("P3", 20)], 0, 20⟩), ("D", ⟨10, [("P4", 10)], 0, 20⟩)]

set_option maxHeartbeats 1000000 in
/-- C5: with exactly 4 active managers the code stores
`round(net / pairings, 3)` with NO division by 3: P1's ffWAR is 1.0,
not the `round((net / pairings) / 3, 3) = 0.333` the claim (and the
repo's own playoff-scaling tests) require. -/
theorem C5_playoff_scaling_missing :
    c5Scores.length = 4 ∧
      dictGet (calculateFfwarPosition c5Scores 15 "QB") "P1" =
        some ⟨1, "A", "QB"⟩ ∧
      roundTo 3 ((12 : ℚ) / 12 / 3) = 333/1000 ∧ (1 : ℚ) ≠ 333/1000 := by
  have hnp : numPlayers c5Scores = 4 := by decide
  have havg : totalPositionScore c5Scores / (numPlayers c5Scores : ℚ) = 20 := by
    rw [hnp]
    norm_num [totalPositionScore, c5Scores]
  have hext : extendScores c5Scores
      (totalPositionScore c5Scores / (numPlayers c5Scores : ℚ)) = c5Ext := by
    rw [havg]
    norm_num [extendScores, playerAvgForManager, c5Scores, c5Ext]
  have h30 : simCounts [("A", (⟨30, [("P1", 30)], 0, 20⟩ : ExtManagerScores)),
      ("B", ⟨20, [("P2", 20)], 0, 20⟩), ("C", ⟨20, [("P3", 20)], 0, 20⟩),
      ("D", ⟨10, [("P4", 10)], 0, 20⟩)] 30 15 = (12, 12) := by
    simp only [simCounts, simStep, List.foldl_cons, List.foldl_nil]
    norm_num
    decide
  have h20 : simCounts [("A", (⟨30, [("P1", 30)], 0, 20⟩ : ExtManagerScores)),
      ("B", ⟨20, [("P2", 20)], 0, 20⟩), ("C", ⟨20, [("P3", 20)], 0, 20⟩),
      ("D", ⟨10, [("P4", 10)], 0, 20⟩)] 20 15 = (0, 12) := by
    simp only [simCounts, simStep, List.foldl_cons, List.foldl_nil]
    norm_num
    decide
  have h10 : simCounts [("A", (⟨30, [("P1", 30)], 0, 20⟩ : ExtManagerScores)),
      ("B", ⟨20, [("P2", 20)], 0, 20⟩), ("C", ⟨20, [("P3", 20)], 0, 20⟩),
      ("D", ⟨10, [("P4", 10)], 0, 20⟩)] 10 15 = (0, 12) := by
    simp only [simCounts, simStep, List.foldl_cons, List.foldl_nil]
    norm_num
    decide
  have hkvs : ffwarKvs (extendScores c5Scores
      (totalPositionScore c5Scores / (numPlayers c5Scores : ℚ))) 15 "QB" =
      [("P1", ⟨1, "A", "QB"⟩), ("P2", ⟨0, "B", "QB"⟩),
       ("P3", ⟨0, "C", "QB"⟩), ("P4", ⟨0, "D", "QB"⟩)] := by
    rw [ffwarKvs, hext]
    simp only [c5Ext, List.flatMap_cons, List.flatMap_nil, List.map_cons,
      List.map_nil, List.append_nil, List.cons_append, List.nil_append,
      h30, h20, h10]
    norm_num [ffwarScore, roundTo, roundHalfEven, ratFloor]
  refine ⟨by decide, ?_, ?_, by norm_num⟩
  · rw [calculateFfwarPosition_eq_insertAll _ _ _ (by decide), hkvs]
    decide
  · norm_num [roundTo, roundHalfEven, ratFloor]

/-! ## Starters cache builder (`utils/starters_loader.py`)

`fetch_starters_for_week` resolves each league user to a real manager
name, finds their roster id, and builds the lineup snapshot for the
week.  The three Sleeper endpoints used (users, rosters, matchups) are
passed in as explicit payload/status pairs. -/

/-- One Sleeper user record. -/
structure UserInfo where
  user_id : String
  display_name : String
deriving DecidableEq

/-- One Sleeper roster record. -/
structure RosterInfo where
  owner_id : String
  roster_id : ℕ
deriving DecidableEq

/-- One Sleeper matchup record. -/
structure Matchup where
  roster_id : ℕ
  starters : List String
  players_points : Dict String ℚ
deriving DecidableEq

/-- `PLAYER_IDS` entry as read by the starters loader: both metadata
fields may be absent. -/
structure PlayerMeta where
  full_name : Option String
  position : Option String
deriving DecidableEq

/-- The three per-week Sleeper responses the starters builder consumes
(the same endpoint returns the same payload within one week's build). -/
structure StartersApi where
  usersResp : List UserInfo × ℕ
  rostersResp : List RosterInfo × ℕ
  matchupsResp : List Matchup × ℕ

/-- `USERNAME_TO_REAL_NAME` from `constants.py`. -/
def USERNAME_TO_REAL_NAME : Dict String String :=
  [("aalvaa", "Anthony"), ("bbennick", "Benz"), ("BilliamBlowland", "Billiam"),
   ("senorpapi", "Christian"), ("codestoppable", "Cody"), ("dpereira7", "Davey"),
   ("BrownBoyLove", "Dheeraj"), ("jkjackson16", "Jack"), ("Jrazzam", "Jay"),
   ("lukehellyer", "Luke"), ("mitchwest", "Mitch"), ("owen0010", "Owen"),
   ("parkdaddy", "Parker"), ("Siemonster", "Sach"), ("samprice18", "Sam"),
   ("charris34", "Soup"), ("tommylowry", "Tommy"), ("bispity", "Ty")]

/-- The seasons configured in `LEAGUE_IDS` (`constants.py`). -/
def LEAGUE_YEARS : List ℕ := [2019, 2020, 2021, 2022, 2023, 2024, 2025]

/-- Manager-name resolution of `fetch_starters_for_week`: unmapped
display names become "Unknown Manager"; in 2019 weeks 1–3 "Cody"
becomes "Tommy". -/
def resolveRealName (season week : ℕ) (display_name : String) : String :=
  let real_name := (dictGet USERNAME_TO_REAL_NAME display_name).getD
    "Unknown Manager"
  if season = 2019 ∧ week < 4 ∧ real_name = "Cody" then "Tommy" else real_name

/-- `get_roster_id`: `none` when the rosters call fails or no roster is
owned by the user. -/
def getRosterId (api : StartersApi) (user_id : String) : Option ℕ :=
  if api.rostersResp.2 ≠ 200 then none
  else (api.rostersResp.1.find? (fun r => r.owner_id = user_id)).map
    (·.roster_id)

/-- One player record of the starters cache. -/
structure PlayerRec where
  points : ℚ
  position : String
deriving DecidableEq

/-- A manager's week entry: the player records plus `Total_Points`
(kept in a separate field; Python stores both in one dict). -/
structure ManagerData where
  players : Dict String PlayerRec
  total : ℚ
deriving DecidableEq

/-- One starter-slot iteration of `get_starters_data`: skip when the
player id resolves to no known name or no known position; otherwise
record the player (overwriting a same-named record) and add the points
to the running total. -/
def startersStep (playerIds : Dict String PlayerMeta) (mu : Matchup)
    (acc : Dict String PlayerRec × ℚ) (pid : String) :
    Dict String PlayerRec × ℚ :=
  let player_name := ((dictGet playerIds pid).bind (·.full_name)).getD
    "Unknown Player"
  if player_name = "Unknown Player" then acc
  else
    let player_score := (dictGet mu.players_points pid).getD 0
    let player_position := ((dictGet playerIds pid).bind (·.position)).getD
      "Unknown Position"
    if player_position = "Unknown Position" then acc
    else
      (dictInsert acc.1 player_name ⟨player_score, player_position⟩,
        acc.2 + player_score)

/-- `get_starters_data`: `none` when the matchups call fails or no
matchup carries the roster id; otherwise a records/total pair with the
total rounded to 2 decimals by a precision-preserving decimal
quantisation. -/
def getStartersData (playerIds : Dict String PlayerMeta)
    (api : StartersApi) (roster_id : ℕ) : Option ManagerData :=
  if api.matchupsResp.2 ≠ 200 then none
  else
    match api.matchupsResp.1.find? (fun mu => mu.roster_id = roster_id) with
    | none => none
    | some mu =>
      some ⟨(mu.starters.foldl (startersStep playerIds mu) ([], 0)).1,
        roundTo 2 (mu.starters.foldl (startersStep playerIds mu) ([], 0)).2⟩

/-- `fetch_starters_for_week`: empty when the users call fails;
otherwise one entry per manager whose roster id resolves (with the 2024
Davey hardcode) and whose matchup is found. -/
def fetchStartersForWeek (playerIds : Dict String PlayerMeta)
    (api : StartersApi) (season week : ℕ) : Dict String ManagerData :=
  if api.usersResp.2 ≠ 200 then []
  else
    api.usersResp.1.foldl (fun week_data manager =>
      let real_name := resolveRealName season week manager.display_name
      let rid0 := getRosterId api manager.user_id
      let rid :=
        match rid0 with
        | none => if season = 2024 ∧ real_name = "Davey" then some 4 else none
        | some r => some r
      match rid with
      | none => week_data
      | some r =>
        if r = 0 then week_data
        else
          match getStartersData playerIds api r with
          | none => week_data
          | some sd => dictInsert week_data real_name sd) []

/-- `_get_max_weeks` of `starters_loader.py`. -/
def startersGetMaxWeeks (season currentSeason currentWeek : ℕ) : ℕ :=
  if season = currentSeason then currentWeek
  else if season = 2019 ∨ season = 2020 then 13
  else 14

/-- Payload of the league-metadata call. -/
structure LeagueInfo where
  season : ℕ
  last_scored_leg : ℕ
deriving DecidableEq

/-- `_get_current_season_and_week` of `starters_loader.py`: raises when
the calendar year has no league id or the call fails; caps the current
week at 14. -/
def startersGetCurrentSeasonAndWeek (currentYear : ℕ)
    (resp : LeagueInfo × ℕ) : Except String (ℕ × ℕ) :=
  if ¬ LEAGUE_YEARS.contains currentYear then
    .error "No league ID found for the current year"
  else if resp.2 ≠ 200 then
    .error "Failed to fetch league data from Sleeper API"
  else
    .ok (resp.1.season,
      if resp.1.last_scored_leg > 14 then 14 else resp.1.last_scored_leg)

/-- `get_current_season_and_week` of `cache_utils.py` (no week cap). -/
def getCurrentSeasonAndWeek (currentYear : ℕ) (resp : LeagueInfo × ℕ) :
    Except String (ℕ × ℕ) :=
  if ¬ LEAGUE_YEARS.contains currentYear then
    .error "No league ID found for the current year"
  else if resp.2 ≠ 200 then
    .error "Failed to fetch league data from Sleeper API"
  else
    .ok (resp.1.season, resp.1.last_scored_leg)

/-! ## Cache orchestrators

`load_or_update_replacement_score_cache`, `load_or_update_ffWAR_cache`
and `load_or_update_starters_cache` share one incremental-update shape:
iterate the configured seasons, compute the missing weeks of each,
record progress markers, and save the cache once at the end.  The
per-week computation is abstracted as a `fetch` parameter (for the
replacement loader it stands for the raw-threshold fetch composed with
the conditional 3-year-average augmentation); the orchestrator-level
theorems below quantify over it. -/

/-- A builder cache: the `Last_Updated_Season` / `Last_Updated_Week`
markers plus the season → (week → value) data (season `0` marks a fresh
cache). -/
structure CacheState (α : Type) where
  lastSeason : ℕ
  lastWeek : ℕ
  data : Dict ℕ (Dict ℕ α)
deriving DecidableEq

/-- One week of the inner loop: create the season entry if absent,
store the fetched value under the week, and advance both markers. -/
def storeWeek {α : Type} (fetch : ℕ → ℕ → α) (year : ℕ)
    (cache : CacheState α) (week : ℕ) : CacheState α :=
  let data0 := if (dictGet cache.data year).isSome then cache.data
    else cache.data ++ [(year, [])]
  { lastSeason := year, lastWeek := week,
    data := dictInsert data0 year
      (dictInsert ((dictGet data0 year).getD []) week (fetch year week)) }

/-- The inner `for week in weeks_to_update` loop, also recording the
`(year, week)` computations performed, in order. -/
def processWeeks {α : Type} (fetch : ℕ → ℕ → α) (year : ℕ)
    (weeks : List ℕ) (st : CacheState α × List (ℕ × ℕ)) :
    CacheState α × List (ℕ × ℕ) :=
  weeks.foldl
    (fun st week => (storeWeek fetch year st.1 week, st.2 ++ [(year, week)]))
    st

/-- The year loop of the replacement-score and ffWAR orchestrators,
which re-read the markers from the cache on every year iteration:
skip fully processed years, zero the week marker when moving past the
last recorded season, stop once the markers match the current
season/week, and otherwise process the missing week range. -/
def incLoopGo {α : Type} (fetch : ℕ → ℕ → α) (cs cw : ℕ)
    (maxW : ℕ → ℕ → ℕ → ℕ) :
    List ℕ → CacheState α × List (ℕ × ℕ) → CacheState α × List (ℕ × ℕ)
  | [], st => st
  | year :: years, (cache, trace) =>
    if cache.lastSeason ≠ 0 ∧ year < cache.lastSeason then
      incLoopGo fetch cs cw maxW years (cache, trace)
    else
      let ls := cache.lastSeason
      let lw := cache.lastWeek
      let cache1 := if ls ≠ 0 ∧ ls < year then { cache with lastWeek := 0 }
        else cache
      if ls = cs ∧ lw = cw then (cache1, trace)
      else
        let mw := maxW year cs cw
        let weeks := if year = cs ∨ year = ls then
            List.range' (cache1.lastWeek + 1) (mw - cache1.lastWeek)
          else List.range' 1 mw
        incLoopGo fetch cs cw maxW years
          (processWeeks fetch year weeks (cache1, trace))

/-- The year loop of the starters orchestrator.  Unlike the other two,
`last_updated_season` is read once before the loop and never re-read
(`ls` here), and the local `last_updated_week` variable (`lw`) is only
re-read from the cache inside the `year == current or year == last`
branch. -/
def startersLoopGo {α : Type} (fetch : ℕ → ℕ → α) (cs cw ls : ℕ) :
    List ℕ → CacheState α × List (ℕ × ℕ) × ℕ →
      CacheState α × List (ℕ × ℕ) × ℕ
  | [], st => st
  | year :: years, (cache, trace, lw) =>
    if ls ≠ 0 ∧ year < ls then
      startersLoopGo fetch cs cw ls years (cache, trace, lw)
    else
      let cache1 := if ls ≠ 0 ∧ ls < year then { cache with lastWeek := 0 }
        else cache
      if ls = cs ∧ lw = cw then (cache1, trace, lw)
      else
        let mw := startersGetMaxWeeks year cs cw
        if year = cs ∨ year = ls then
          let lw1 := cache1.lastWeek
          let p := processWeeks fetch year
            (List.range' (lw1 + 1) (mw - lw1)) (cache1, trace)
          startersLoopGo fetch cs cw ls years (p.1, p.2, lw1)
        else
          let p := processWeeks fetch year (List.range' 1 mw) (cache1, trace)
          startersLoopGo fetch cs cw ls years (p.1, p.2, lw)

/-- The replacement-score year list: `LEAGUE_IDS` plus the three
backfill seasons before the first league year, sorted. -/
def RS_YEARS : List ℕ := [2016, 2017, 2018] ++ LEAGUE_YEARS

/-- The ffWAR orchestrator's cap of the current week at 14. -/
def ffwarCapWeek (w : ℕ) : ℕ := if w > 14 then 14 else w

/-- The replacement-score orchestrator's cap of the current week
at 18. -/
def rsCapWeek (w : ℕ) : ℕ := if w > 18 then 18 else w

/-- `load_or_update_ffWAR_cache` down to the save: the final cache and
the ordered list of `(year, week)` computations performed. -/
def ffwarLoadOrUpdate {α : Type} (fetch : ℕ → ℕ → α) (cs cw : ℕ)
    (cache : CacheState α) : CacheState α × List (ℕ × ℕ) :=
  incLoopGo fetch cs (ffwarCapWeek cw) ffwarGetMaxWeeks LEAGUE_YEARS
    (cache, [])

/-- `load_or_update_replacement_score_cache` down to the save. -/
def rsLoadOrUpdate {α : Type} (fetch : ℕ → ℕ → α) (cs cw : ℕ)
    (cache : CacheState α) : CacheState α × List (ℕ × ℕ) :=
  incLoopGo fetch cs (rsCapWeek cw) rsGetMaxWeeks RS_YEARS (cache, [])

/-- `load_or_update_starters_cache` down to the save; `cw` is the
already-capped week its `_get_current_season_and_week` returns. -/
def startersLoadOrUpdate {α : Type} (fetch : ℕ → ℕ → α) (cs cw : ℕ)
    (cache : CacheState α) : CacheState α × List (ℕ × ℕ) × ℕ :=
  startersLoopGo fetch cs cw cache.lastSeason LEAGUE_YEARS
    (cache, [], cache.lastWeek)

/-- Observable persistence-relevant events of one orchestrator run: a
per-week computation, or a write of the full cache to disk. -/
inductive RunEvent where
  | week (year w : ℕ)
  | save
deriving DecidableEq

/-- The week computations of a trace, as events. -/
def weekEvents (trace : List (ℕ × ℕ)) : List RunEvent :=
  trace.map fun p => RunEvent.week p.1 p.2

/-- Event sequence of one ffWAR orchestrator run: the source calls
`save_cache` exactly once, after the year/week loop. -/
def ffwarRunEvents {α : Type} (fetch : ℕ → ℕ → α) (cs cw : ℕ)
    (cache : CacheState α) : List RunEvent :=
  weekEvents (ffwarLoadOrUpdate fetch cs cw cache).2 ++ [RunEvent.save]

/-- Event sequence of one replacement-score orchestrator run
(`save_cache` once, after the loop). -/
def rsRunEvents {α : Type} (fetch : ℕ → ℕ → α) (cs cw : ℕ)
    (cache : CacheState α) : List RunEvent :=
  weekEvents (rsLoadOrUpdate fetch cs cw cache).2 ++ [RunEvent.save]

/-- Event sequence of one starters orchestrator run (`_save_cache`
once, after the loop). -/
def startersRunEvents {α : Type} (fetch : ℕ → ℕ → α) (cs cw : ℕ)
    (cache : CacheState α) : List RunEvent :=
  weekEvents (startersLoadOrUpdate fetch cs cw cache).2.1 ++ [RunEvent.save]

/-- Week-granular crash-resumability requires a save between any two
week computations: true iff no two week events are adjacent. -/
def noAdjacentWeeks : List RunEvent → Bool
  | RunEvent.week _ _ :: RunEvent.week _ _ :: _ => false
  | _ :: rest => noAdjacentWeeks rest
  | [] => true

/-! ## Claims about the starters loader and the orchestrators -/

/-- Unmapped display names used by the C10 overwrite scenario. -/
def c10Pids : Dict String PlayerMeta :=
  [("P1", ⟨some "Player One", some "WR"⟩),
   ("P2", ⟨some "Player Two", some "RB"⟩)]

/-- Two users whose display names are absent from
`USERNAME_TO_REAL_NAME`, each owning a roster with a matchup. -/
def c10Api : StartersApi :=
  ⟨([⟨"u1", "xXsharkbiteXx"⟩, ⟨"u2", "gridironGuru"⟩], 200),
   ([⟨"u1", 1⟩, ⟨"u2", 2⟩], 200),
   ([⟨1, ["P1"], [("P1", 2)]⟩, ⟨2, ["P2"], [("P2", 3)]⟩], 200)⟩

/-- Claim C10: every display name absent from `USERNAME_TO_REAL_NAME`
resolves to the single shared name "Unknown Manager", and when two such
unmapped managers both have resolvable rosters in the same week their
lineups collapse onto the one key, the later manager silently
overwriting the earlier one. -/
theorem C10_unmapped_managers_collapse :
    (∀ (season week : ℕ) (name : String),
        dictGet USERNAME_TO_REAL_NAME name = none →
        resolveRealName season week name = "Unknown Manager") ∧
    ((getRosterId c10Api "u1").isSome = true ∧
      (getRosterId c10Api "u2").isSome = true ∧
      fetchStartersForWeek c10Pids c10Api 2023 1 =
        [("Unknown Manager",
          ⟨[("Player Two", ⟨3, "RB"⟩)], roundTo 2 (0 + 3)⟩)]) := by
  constructor
  · intro season week name h
    simp [resolveRealName, h]
  · exact ⟨rfl, rfl, rfl⟩

/-- Claim C10, witness: a concrete unmapped display name resolves to
"Unknown Manager". -/
theorem C10_witness :
    resolveRealName 2023 1 "xXsharkbiteXx" = "Unknown Manager" :=
  C10_unmapped_managers_collapse.1 2023 1 "xXsharkbiteXx" rfl

/-- Claim C2: when the users call fails the week result is empty. -/
theorem C2_failed_week_empty_but_persisted :
    (∀ (playerIds : Dict String PlayerMeta) (api : StartersApi)
        (season week : ℕ), api.usersResp.2 ≠ 200 →
        fetchStartersForWeek playerIds api season week = []) ∧
    (startersLoadOrUpdate (fun _ _ => ([] : Dict String ManagerData)) 2025 5
        ⟨2025, 4, [(2025, [])]⟩).1 = ⟨2025, 5, [(2025, [(5, [])])]⟩ := by
  constructor
  · intro playerIds api season week h
    simp [fetchStartersForWeek, h]
  · rfl

/-- Claim C2, witness: a failing users call yields the empty week. -/
theorem C2_witness :
    fetchStartersForWeek [] ⟨([], 500), ([], 200), ([], 200)⟩ 2025 1 = [] :=
  C2_failed_week_empty_but_persisted.1 []
    ⟨([], 500), ([], 200), ([], 200)⟩ 2025 1 (by decide)

/-- A 2024 league whose rosters call fails while the users and matchups
calls succeed; the Davey hardcode still produces a lineup. -/
def c2Api : StartersApi :=
  ⟨([⟨"u1", "dpereira7"⟩], 200), ([], 500),
   ([⟨4, ["JA1"], [("JA1", 5)]⟩], 200)⟩

/-- Player table for the C2 refutation. -/
def c2PlayerIds : Dict String PlayerMeta :=
  [("JA1", ⟨some "Josh Allen", some "QB"⟩)]

/-- Claim C2, counterexample: with the rosters call failing in 2024 the
Davey hardcode still yields a nonempty (partial) week, and the
orchestrator persists an empty failed week and advances the marker past
it rather than retrying it. -/
theorem C2_counterexample :
    c2Api.rostersResp.2 ≠ 200 ∧
    (dictGet (fetchStartersForWeek c2PlayerIds c2Api 2024 1) "Davey").isSome
      = true ∧
    (fetchStartersForWeek c2PlayerIds c2Api 2024 1).length = 1 ∧
    (startersLoadOrUpdate (fun _ _ => ([] : Dict String ManagerData)) 2025 5
        ⟨2025, 4, [(2025, [])]⟩).1.lastWeek = 5 ∧
    dictGet (startersLoadOrUpdate (fun _ _ => ([] : Dict String ManagerData))
        2025 5 ⟨2025, 4, [(2025, [])]⟩).1.data 2025 = some [(5, [])] :=
  ⟨by decide, rfl, rfl, rfl, rfl⟩

/-- Claim C7: the max-week rules as implemented.  The starters builder
caps the externally resolved current week at 14 before using it, and
uses 13 weeks for 2019 and 2020 and 14 for other past seasons; the
replacement builder caps the current week at 18, and uses 17 weeks for
every past season up to 2020 — including the backfilled 2016, 2017 and
2018 — and 18 weeks for later past seasons. -/
theorem C7_max_week_characterisation :
    (∀ (info : LeagueInfo) (year : ℕ), year ∈ LEAGUE_YEARS →
        startersGetCurrentSeasonAndWeek year (info, 200)
          = .ok (info.season, min info.last_scored_leg 14)) ∧
    (∀ cs cw, startersGetMaxWeeks cs cs cw = cw) ∧
    (∀ season cs cw, season ≠ cs →
        startersGetMaxWeeks season cs cw
          = if season = 2019 ∨ season = 2020 then 13 else 14) ∧
    (∀ cs cw, rsGetMaxWeeks cs cs cw = cw) ∧
    (∀ season cs cw, season ≠ cs →
        rsGetMaxWeeks season cs cw = if season ≤ 2020 then 17 else 18) ∧
    (∀ w, rsCapWeek w = min w 18) ∧
    (2016 ∈ RS_YEARS ∧ 2017 ∈ RS_YEARS ∧ 2018 ∈ RS_YEARS) := by
  refine ⟨?_, ?_, ?_, ?_, ?_, ?_, by decide⟩
  · intro info year hy
    have hm : (if info.last_scored_leg > 14 then 14 else info.last_scored_leg)
        = min info.last_scored_leg 14 := by split <;> omega
    simp [startersGetCurrentSeasonAndWeek, hm, hy]
  · intro cs cw
    simp [startersGetMaxWeeks]
  · intro season cs cw h
    simp [startersGetMaxWeeks, h]
  · intro cs cw
    simp [rsGetMaxWeeks]
  · intro season cs cw h
    simp [rsGetMaxWeeks, h]
  · intro w
    unfold rsCapWeek
    split <;> omega

/-- Claim C7, witness: the characterisation at concrete inputs. -/
theorem C7_witness :
    startersGetCurrentSeasonAndWeek 2024 (⟨2024, 10⟩, 200)
      = .ok (2024, min 10 14) ∧
    startersGetMaxWeeks 2020 2024 10
      = (if (2020 : ℕ) = 2019 ∨ (2020 : ℕ) = 2020 then 13 else 14) ∧
    rsGetMaxWeeks 2018 2024 10 = (if (2018 : ℕ) ≤ 2020 then 17 else 18) :=
  ⟨C7_max_week_characterisation.1 ⟨2024, 10⟩ 2024 (by decide),
   C7_max_week_characterisation.2.2.1 2020 2024 10 (by decide),
   C7_max_week_characterisation.2.2.2.2.1 2018 2024 10 (by decide)⟩

/-- Claim C7, counterexample: the starters builder does not use the
external current week uncapped (week 17 becomes 14), and the backfilled
2016 season gets 17 weeks in the replacement builder, not 18. -/
theorem C7_counterexample :
    startersGetCurrentSeasonAndWeek 2025 (⟨2025, 17⟩, 200) = .ok (2025, 14) ∧
    (14 : ℕ) ≠ 17 ∧
    rsGetMaxWeeks 2016 2025 10 = 17 ∧ (17 : ℕ) ≠ 18 := by
  exact ⟨rfl, by decide, rfl, by decide⟩

set_option maxHeartbeats 4000000 in
/-- Claim C8: from marker (2024, 3) with current (2024, 5), the ffWAR
and replacement orchestrators compute exactly weeks 4 and 5 of 2024,
leave weeks 1–3 unchanged (and end with the week marker zeroed by the
reset of the following year iteration); the starters orchestrator also
computes weeks 4 and 5 but then, because its marker variables were read
once before the loop and are stale, goes on to fetch all 14 weeks of
the following configured season 2025. -/
theorem C8_resume_marker_behaviour {α : Type} (fetch : ℕ → ℕ → α)
    (v1 v2 v3 : α) :
    ffwarLoadOrUpdate fetch 2024 5
        ⟨2024, 3, [(2024, [(1, v1), (2, v2), (3, v3)])]⟩
      = (⟨2024, 0, [(2024, [(1, v1), (2, v2), (3, v3),
            (4, fetch 2024 4), (5, fetch 2024 5)])]⟩,
         [(2024, 4), (2024, 5)]) ∧
    rsLoadOrUpdate fetch 2024 5
        ⟨2024, 3, [(2024, [(1, v1), (2, v2), (3, v3)])]⟩
      = (⟨2024, 0, [(2024, [(1, v1), (2, v2), (3, v3),
            (4, fetch 2024 4), (5, fetch 2024 5)])]⟩,
         [(2024, 4), (2024, 5)]) ∧
    (startersLoadOrUpdate fetch 2024 5
        ⟨2024, 3, [(2024, [(1, v1), (2, v2), (3, v3)])]⟩).2.1
      = [(2024, 4), (2024, 5), (2025, 1), (2025, 2), (2025, 3), (2025, 4),
         (2025, 5), (2025, 6), (2025, 7), (2025, 8), (2025, 9), (2025, 10),
         (2025, 11), (2025, 12), (2025, 13), (2025, 14)] ∧
    (startersLoadOrUpdate fetch 2024 5
        ⟨2024, 3, [(2024, [(1, v1), (2, v2), (3, v3)])]⟩).1.lastSeason
      = 2025 := by
  refine ⟨?_, ?_, ?_, ?_⟩ <;> rfl

/-- Claim C8, counterexample: the starters orchestrator run from marker
(2024, 3) with current (2024, 5) does not compute exactly weeks 4
and 5. -/
theorem C8_counterexample :
    (startersLoadOrUpdate (fun _ _ => ()) 2024 5
        ⟨2024, 3, [(2024, [(1, ()), (2, ()), (3, ())])]⟩).2.1
      ≠ [(2024, 4), (2024, 5)] := by decide

/-- Any event trace of the form week computations followed by one save
has exactly one save, at the end. -/
theorem count_save_weekEvents_concat (t : List (ℕ × ℕ)) :
    (weekEvents t ++ [RunEvent.save]).count RunEvent.save = 1 ∧
    (weekEvents t ++ [RunEvent.save]).getLast? = some RunEvent.save := by
  constructor
  · rw [List.count_append]
    have h0 : (weekEvents t).count RunEvent.save = 0 := by
      rw [List.count_eq_zero]
      simp [weekEvents]
    rw [h0]
    rfl
  · exact List.getLast?_concat _

/-- Claim C3: each of the three builders persists the cache exactly
once per run, after the whole year/week loop finishes — there is no
per-week save. -/
theorem C3_single_save_after_loop {α : Type} (fetch : ℕ → ℕ → α)
    (cs cw : ℕ) (cache : CacheState α) :
    ((ffwarRunEvents fetch cs cw cache).count RunEvent.save = 1 ∧
      (ffwarRunEvents fetch cs cw cache).getLast? = some RunEvent.save) ∧
    ((rsRunEvents fetch cs cw cache).count RunEvent.save = 1 ∧
      (rsRunEvents fetch cs cw cache).getLast? = some RunEvent.save) ∧
    ((startersRunEvents fetch cs cw cache).count RunEvent.save = 1 ∧
      (startersRunEvents fetch cs cw cache).getLast? = some RunEvent.save) :=
  ⟨count_save_weekEvents_concat _, count_save_weekEvents_concat _,
    count_save_weekEvents_concat _⟩

/-- Claim C3, counterexample: a two-week ffWAR run computes weeks 4
and 5 back-to-back with no save between them, so the cache is not
persisted after every week. -/
theorem C3_counterexample :
    ffwarRunEvents (fun _ _ => ()) 2024 5
        ⟨2024, 3, [(2024, [(1, ()), (2, ()), (3, ())])]⟩
      = [RunEvent.week 2024 4, RunEvent.week 2024 5, RunEvent.save] ∧
    noAdjacentWeeks (ffwarRunEvents (fun _ _ => ()) 2024 5
        ⟨2024, 3, [(2024, [(1, ()), (2, ()), (3, ())])]⟩) = false := by
  decide

/-! ## Claim C9: additivity of `Total_Points` in `get_starters_data` -/

/-- One starter slot as `get_starters_data` processes it: `none` when
the slot is skipped (no known name or no known position), otherwise the
resolved name, the points, and the position. -/
def processedSlot (playerIds : Dict String PlayerMeta) (mu : Matchup)
    (pid : String) : Option (String × ℚ × String) :=
  let player_name := ((dictGet playerIds pid).bind (·.full_name)).getD
    "Unknown Player"
  if player_name = "Unknown Player" then none
  else
    let player_position := ((dictGet playerIds pid).bind (·.position)).getD
      "Unknown Position"
    if player_position = "Unknown Position" then none
    else some (player_name, (dictGet mu.players_points pid).getD 0,
      player_position)

/-- `startersStep` acts on the accumulator exactly as the processed
slot dictates. -/
theorem startersStep_eq (playerIds : Dict String PlayerMeta) (mu : Matchup)
    (acc : Dict String PlayerRec × ℚ) (pid : String) :
    startersStep playerIds mu acc pid
      = match processedSlot playerIds mu pid with
        | none => acc
        | some x => (dictInsert acc.1 x.1 ⟨x.2.1, x.2.2⟩, acc.2 + x.2.1) := by
  by_cases h1 : ((dictGet playerIds pid).bind (fun p => p.full_name)).getD
      "Unknown Player" = "Unknown Player"
  · simp [startersStep, processedSlot, h1]
  · by_cases h2 : ((dictGet playerIds pid).bind (fun p => p.position)).getD
        "Unknown Position" = "Unknown Position"
    · simp [startersStep, processedSlot, h1, h2]
    · simp [startersStep, processedSlot, h1, h2]

/-- Inserting an absent key appends it. -/
theorem dictInsert_of_get_none {α β : Type _} [DecidableEq α]
    (d : Dict α β) (k : α) (v : β) (h : dictGet d k = none) :
    dictInsert d k v = d ++ [(k, v)] := by
  unfold dictInsert
  split_ifs with hc
  · exfalso
    rcases List.any_eq_true.mp hc with ⟨p, hp, hpk⟩
    rcases hfind : d.find? (fun q => q.1 = k) with _ | q
    · have hnone := List.find?_eq_none.mp hfind p hp
      simp only [decide_eq_true_eq] at hnone hpk
      exact hnone hpk
    · rw [dictGet, hfind] at h
      simp at h
  · rfl

/-- The running total of the `get_starters_data` fold is the initial
total plus the points of the processed slots. -/
theorem foldl_startersStep_snd (playerIds : Dict String PlayerMeta)
    (mu : Matchup) (l : List String) :
    ∀ (acc : Dict String PlayerRec × ℚ),
    (l.foldl (startersStep playerIds mu) acc).2
      = acc.2 + ((l.filterMap (processedSlot playerIds mu)).map
          (fun x => x.2.1)).sum := by
  induction l with
  | nil => intro acc; simp
  | cons pid rest ih =>
    intro acc
    rw [List.foldl_cons, startersStep_eq]
    cases h : processedSlot playerIds mu pid with
    | none =>
      simp only [List.filterMap_cons, h]
      exact ih acc
    | some x =>
      obtain ⟨n, s, pos⟩ := x
      simp only [List.filterMap_cons, h, List.map_cons, List.sum_cons]
      rw [ih (dictInsert acc.1 n ⟨s, pos⟩, acc.2 + s)]
      dsimp only
      ring

/-- When the processed names are pairwise distinct and absent from the
accumulator, the `get_starters_data` fold appends one record per
processed slot. -/
theorem foldl_startersStep_fst (playerIds : Dict String PlayerMeta)
    (mu : Matchup) (l : List String) :
    ∀ (acc : Dict String PlayerRec × ℚ),
    ((l.filterMap (processedSlot playerIds mu)).map (fun x => x.1)).Nodup →
    (∀ n, n ∈ (l.filterMap (processedSlot playerIds mu)).map (fun x => x.1) →
      dictGet acc.1 n = none) →
    (l.foldl (startersStep playerIds mu) acc).1
      = acc.1 ++ (l.filterMap (processedSlot playerIds mu)).map
          (fun x => (x.1, PlayerRec.mk x.2.1 x.2.2)) := by
  induction l with
  | nil => intro acc _ _; simp
  | cons pid rest ih =>
    intro acc hnd hfresh
    rw [List.foldl_cons, startersStep_eq]
    cases h : processedSlot playerIds mu pid with
    | none =>
      simp only [List.filterMap_cons, h] at hnd hfresh ⊢
      exact ih acc hnd hfresh
    | some x =>
      obtain ⟨n, s, pos⟩ := x
      simp only [List.filterMap_cons, h, List.map_cons] at hnd hfresh ⊢
      have hn : dictGet acc.1 n = none := hfresh n (by simp)
      have hnodup := List.nodup_cons.mp hnd
      have hfr : ∀ m, m ∈ (rest.filterMap (processedSlot playerIds mu)).map
          (fun x => x.1) →
          dictGet (acc.1 ++ [(n, PlayerRec.mk s pos)]) m = none := by
        intro m hm
        have hmn : m ≠ n := fun hcon => hnodup.1 (hcon ▸ hm)
        rw [dictGet_append_single_ne acc.1 n m (PlayerRec.mk s pos) hmn]
        exact hfresh m (List.mem_cons_of_mem _ hm)
      rw [dictInsert_of_get_none acc.1 n ⟨s, pos⟩ hn]
      rw [ih (acc.1 ++ [(n, PlayerRec.mk s pos)], acc.2 + s) hnodup.2 hfr]
      simp

/-- Claim C9: whenever `get_starters_data` finds the matchup and the
processed starter slots carry pairwise distinct resolved names, the
stored `Total_Points` is the sum of the recorded player points rounded
to two decimals, hence within 0.01 of that sum. -/
theorem C9_total_additivity (playerIds : Dict String PlayerMeta)
    (api : StartersApi) (rid : ℕ) (mu : Matchup)
    (hok : api.matchupsResp.2 = 200)
    (hmu : api.matchupsResp.1.find? (fun m => m.roster_id = rid) = some mu)
    (hnd : ((mu.starters.filterMap (processedSlot playerIds mu)).map
        (fun x => x.1)).Nodup) :
    ∃ md, getStartersData playerIds api rid = some md ∧
      md.total = roundTo 2 ((md.players.map (fun p => p.2.points)).sum) ∧
      |md.total - ((md.players.map (fun p => p.2.points)).sum)| ≤ 1 / 100 := by
  have hsnd := foldl_startersStep_snd playerIds mu mu.starters ([], 0)
  have hfst := foldl_startersStep_fst playerIds mu mu.starters ([], 0) hnd
    (fun n _ => rfl)
  have h1 : (mu.starters.foldl (startersStep playerIds mu) ([], 0)).2
      = (((mu.starters.foldl (startersStep playerIds mu) ([], 0)).1.map
          (fun p => p.2.points)).sum) := by
    rw [hsnd, hfst]
    simp [List.map_map, Function.comp]
    rfl
  refine ⟨⟨(mu.starters.foldl (startersStep playerIds mu) ([], 0)).1,
      roundTo 2 (mu.starters.foldl (startersStep playerIds mu) ([], 0)).2⟩,
    ?_, ?_, ?_⟩
  · unfold getStartersData
    rw [if_neg (by simp [hok]), hmu]
  · exact congrArg (roundTo 2) h1
  · show |roundTo 2 (mu.starters.foldl (startersStep playerIds mu) ([], 0)).2
        - (((mu.starters.foldl (startersStep playerIds mu) ([], 0)).1.map
            (fun p => p.2.points)).sum)| ≤ 1 / 100
    rw [← h1]
    exact le_trans (abs_roundTo_sub_le 2 _) (by norm_num)

/-- Player table for the C9 witness. -/
def c9Pids : Dict String PlayerMeta :=
  [("JA1", ⟨some "Josh Allen", some "QB"⟩)]

/-- Matchup for the C9 witness. -/
def c9Mu : Matchup := ⟨1, ["JA1"], [("JA1", 10)]⟩

/-- Per-week responses for the C9 witness. -/
def c9Api : StartersApi := ⟨([], 200), ([], 200), ([c9Mu], 200)⟩

/-- Claim C9, witness: the additivity statement at a concrete week. -/
theorem C9_witness :
    ∃ md, getStartersData c9Pids c9Api 1 = some md ∧
      md.total = roundTo 2 ((md.players.map (fun p => p.2.points)).sum) ∧
      |md.total - ((md.players.map (fun p => p.2.points)).sum)| ≤ 1 / 100 :=
  C9_total_additivity c9Pids c9Api 1 c9Mu rfl rfl (by decide)

/-- Player table with two ids resolving to one full name, for the C9
refutation. -/
def c9dupPids : Dict String PlayerMeta :=
  [("P1", ⟨some "Josh Allen", some "QB"⟩),
   ("P2", ⟨some "Josh Allen", some "LB"⟩)]

/-- Matchup starting both duplicate-named players. -/
def c9dupMu : Matchup := ⟨1, ["P1", "P2"], [("P1", 10), ("P2", 7)]⟩

/-- Per-week responses for the C9 refutation. -/
def c9dupApi : StartersApi := ⟨([], 200), ([], 200), ([c9dupMu], 200)⟩

/-- Claim C9, counterexample: two starters resolving to one full name
make the stored total (17) include both scores while only the last
record (7 points) survives, so the total is not within 0.01 of the sum
of the recorded player points. -/
theorem C9_counterexample :
    ∃ md, getStartersData c9dupPids c9dupApi 1 = some md ∧
      md.players = [("Josh Allen", ⟨7, "LB"⟩)] ∧
      md.total = 17 ∧
      ¬ |md.total - ((md.players.map (fun p => p.2.points)).sum)| ≤ 1 / 100 := by
  have htot : roundTo 2 ((0 : ℚ) + 10 + 7) = 17 := by
    norm_num [roundTo, roundHalfEven, ratFloor]
  refine ⟨⟨[("Josh Allen", ⟨7, "LB"⟩)], roundTo 2 ((0 : ℚ) + 10 + 7)⟩,
    rfl, rfl, htot, ?_⟩
  show ¬ |roundTo 2 ((0 : ℚ) + 10 + 7)
      - (([("Josh Allen", PlayerRec.mk 7 "LB")].map
          (fun p => p.2.points)).sum)| ≤ 1 / 100
  rw [htot]
  simp only [List.map_cons, List.map_nil, List.sum_cons, List.sum_nil]
  norm_num

end PatriotCenter